import Mathlib

/-!
Verification of the HNSW index of this repository.

The subclass `HNSWWithDB` (payload map, serialization round trip) is
translated from `src/src/lib/embedding/hnsw/db.ts`; `l2Normalize` is
translated from the semantic-search service source.  The base `HNSW`
class (`main.ts`), the similarity module and the priority queue are not
present under `src/`, so they are modelled from the specification
(sections 3, 4.1, 4.4, 4.5, 4.6); each such definition carries a doc
comment starting with `Modelled from the spec:`.

Floating-point arithmetic of the source is embedded as exact real
arithmetic over `ℝ`; vectors are `List ℝ`.  JavaScript `Map`s are
embedded as association lists with `Map` semantics (`mget`/`mset`:
lookup first match, set replaces in place or appends).  Fallible
operations return `Except`.
-/

namespace Hnsw

/-- Modelled from the spec: the recognized metric options, `{cosine, euclidean}`
(section 3, Parameters). -/
inductive Metric where
  | cosine
  | euclidean
deriving DecidableEq

/-- Modelled from the spec: error kinds surfaced by the index (section 7);
only the two reachable from insertion are needed here. -/
inductive HNSWError where
  | DuplicateId
  | DimensionMismatch
deriving DecidableEq

/-- Modelled from the spec: dot product of two equal-length vectors
(the loop accumulating `x*y`); on unequal lengths the trailing part is ignored. -/
noncomputable def dot : List ℝ → List ℝ → ℝ
  | x :: xs, y :: ys => x * y + dot xs ys
  | _, _ => 0

/-- Sum of squares of a vector, as the self dot product. -/
noncomputable def sumSq (v : List ℝ) : ℝ := dot v v

/-- Euclidean (L2) norm of a vector. -/
noncomputable def l2norm (v : List ℝ) : ℝ := Real.sqrt (sumSq v)

/-- Modelled from the spec: sum of squared component differences,
the radicand of the euclidean distance (section 4.1). -/
noncomputable def distSq : List ℝ → List ℝ → ℝ
  | x :: xs, y :: ys => (x - y) ^ 2 + distSq xs ys
  | _, _ => 0

/-- Modelled from the spec: euclidean distance between two vectors. -/
noncomputable def euclideanDist (u v : List ℝ) : ℝ := Real.sqrt (distSq u v)

/-- Modelled from the spec: cosine similarity `dot(u,v) / (‖u‖·‖v‖)`,
guarded against a zero denominator, which is treated as 0 similarity
rather than failing (section 4.1). -/
noncomputable def cosineSimilarity (u v : List ℝ) : ℝ :=
  if l2norm u * l2norm v = 0 then 0 else dot u v / (l2norm u * l2norm v)

/-- Modelled from the spec: euclidean-derived similarity `1 / (1 + distance)`,
so that higher is better (section 4.1). -/
noncomputable def euclideanSimilarity (u v : List ℝ) : ℝ :=
  1 / (1 + euclideanDist u v)

/-- Modelled from the spec: the pluggable scalar comparator selected by the
metric parameter; higher is always better (section 4.1). -/
noncomputable def Metric.score : Metric → List ℝ → List ℝ → ℝ
  | .cosine, u, v => cosineSimilarity u v
  | .euclidean, u, v => euclideanSimilarity u v

/-- Modelled from the spec: a graph vertex record holding the vector payload
and the per-layer neighbor id lists, layer 0 first (section 3, Node); the id
is the key under which the node is stored in the graph's node map. -/
structure Node where
  vector : List ℝ
  neighbors : List (List Int)

/-- Lookup in an association list with JavaScript `Map.get` semantics:
the value of the first entry with the given key, if any. -/
def mget {β : Type _} : List (Int × β) → Int → Option β
  | [], _ => none
  | (k, v) :: rest, id => if k = id then some v else mget rest id

/-- Update of an association list with JavaScript `Map.set` semantics:
an existing key is overwritten in place, a new key is appended. -/
def mset {β : Type _} : List (Int × β) → Int → β → List (Int × β)
  | [], id, v => [(id, v)]
  | (k, w) :: rest, id, v =>
    if k = id then (id, v) :: rest else (k, w) :: mset rest id v

/-- Modelled from the spec: the graph state of the index — node map, entry
point, maximum layer and the construction parameters (section 3, Graph
state); field names follow the source (`levelMax`, `entryPointId`). -/
structure HNSW where
  M : Nat
  efConstruction : Nat
  d : Option Nat
  metric : Metric
  levelMax : Nat
  entryPointId : Option Int
  nodes : List (Int × Node)

/-- Modelled from the spec: the constructor
`new(M = 16, efConstruction = 200, d = null, metric = "cosine")`
(section 6); an empty graph has no entry point. -/
def hnswNew (M : Nat := 16) (efConstruction : Nat := 200)
    (d : Option Nat := none) (metric : Metric := Metric.cosine) : HNSW :=
  { M := M, efConstruction := efConstruction, d := d, metric := metric,
    levelMax := 0, entryPointId := none, nodes := [] }

/-- Modelled from the spec: a search result entry `{id, score}` (section 4.5). -/
structure SearchResult where
  id : Int
  score : ℝ

/-- Modelled from the spec: ordered insertion into a score-descending list,
the shallow embedding of the binary-heap priority queue of section 4.2
(internal heap orderings are not semantically meaningful per section 4.6);
an equal score goes after existing entries, so ties keep insertion order. -/
noncomputable def insertDesc (x : Int × ℝ) : List (Int × ℝ) → List (Int × ℝ)
  | [] => [x]
  | y :: ys => if x.2 > y.2 then x :: y :: ys else y :: insertDesc x ys

/-- Modelled from the spec: among a list of neighbor ids, the one whose vector
has the highest similarity to the query, with its score (section 4.4 step 3);
ids absent from the node map are skipped. -/
noncomputable def bestNeighbor (metric : Metric) (nodes : List (Int × Node))
    (q : List ℝ) (ids : List Int) : Option (Int × ℝ) :=
  ids.foldl (fun acc nid =>
    match mget nodes nid with
    | none => acc
    | some nd =>
      let s := Metric.score metric q nd.vector
      match acc with
      | none => some (nid, s)
      | some b => if s > b.2 then some (nid, s) else acc) none

/-- Modelled from the spec: the single-best-neighbor greedy walk at one layer —
repeatedly move to the neighbor with the highest similarity to the query until
no neighbor improves on the current point (section 4.4 step 3).  The fuel
argument bounds the recursion; each move strictly improves the score, so
`nodes.length + 1` fuel never runs out. -/
noncomputable def greedyStepLoop (metric : Metric) (nodes : List (Int × Node))
    (q : List ℝ) (layer : Nat) : Nat → Int × ℝ → Int × ℝ
  | 0, cur => cur
  | fuel + 1, cur =>
    match mget nodes cur.1 with
    | none => cur
    | some nd =>
      match bestNeighbor metric nodes q (nd.neighbors.getD layer []) with
      | none => cur
      | some b =>
        if b.2 > cur.2 then greedyStepLoop metric nodes q layer fuel b else cur

/-- Modelled from the spec: greedy descent — perform the greedy walk at each
layer from `top` down to `bottom`, carrying the best point found down as the
starting point of the next layer (sections 4.4 step 3 and 4.5 step 1). -/
noncomputable def descendFrom (metric : Metric) (nodes : List (Int × Node))
    (q : List ℝ) (top bottom : Nat) (start : Int × ℝ) : Int × ℝ :=
  ((List.range (top + 1 - bottom)).map (fun i => top - i)).foldl
    (fun cur layer => greedyStepLoop metric nodes q layer (nodes.length + 1) cur)
    start

/-- Modelled from the spec: scoring one neighbor during candidate expansion
(section 4.5 step 2).  State is (visited ids, candidate queue, best-set);
a not-yet-visited neighbor is scored and admitted into the best-set if the
best-set has not reached size `ef` or its score beats the current worst of
the best-set (which is then evicted); an admitted neighbor also joins the
candidate queue. -/
noncomputable def expandNeighbor (metric : Metric) (nodes : List (Int × Node))
    (q : List ℝ) (ef : Nat)
    (st : List Int × List (Int × ℝ) × List (Int × ℝ)) (nid : Int) :
    List Int × List (Int × ℝ) × List (Int × ℝ) :=
  let visited := st.1
  let cands := st.2.1
  let best := st.2.2
  if visited.contains nid then st
  else
    match mget nodes nid with
    | none => (nid :: visited, cands, best)
    | some nd =>
      let s := Metric.score metric q nd.vector
      if best.length < ef then
        (nid :: visited, insertDesc (nid, s) cands, insertDesc (nid, s) best)
      else
        match best.getLast? with
        | none => (nid :: visited, insertDesc (nid, s) cands, insertDesc (nid, s) best)
        | some w =>
          if s > w.2 then
            (nid :: visited, insertDesc (nid, s) cands,
              (insertDesc (nid, s) best).take ef)
          else (nid :: visited, cands, best)

/-- Modelled from the spec: the beam-search loop at one layer — repeatedly pop
the best unexpanded candidate and expand its neighbors, until the candidate
queue is empty (section 4.5 step 2; the early-stop optimization is noted there
as not required for correctness and is omitted).  Fuel bounds the loop; every
queued id is marked visited when pushed, so pops are bounded by the node
count plus the initial entry. -/
noncomputable def beamLoop (metric : Metric) (nodes : List (Int × Node))
    (q : List ℝ) (layer ef : Nat) :
    Nat → List Int → List (Int × ℝ) → List (Int × ℝ) → List (Int × ℝ)
  | 0, _, _, best => best
  | fuel + 1, visited, cands, best =>
    match cands with
    | [] => best
    | c :: rest =>
      match mget nodes c.1 with
      | none => beamLoop metric nodes q layer ef fuel visited rest best
      | some nd =>
        let st := (nd.neighbors.getD layer []).foldl
          (expandNeighbor metric nodes q ef) (visited, rest, best)
        beamLoop metric nodes q layer ef fuel st.1 st.2.1 st.2.2

/-- Modelled from the spec: beam search at a layer with candidate-list width
`ef`, starting from one entry point with its score; both queues and the
visited set start with the entry (section 4.5 step 2). -/
noncomputable def beamSearch (metric : Metric) (nodes : List (Int × Node))
    (q : List ℝ) (layer ef : Nat) (startId : Int) (startScore : ℝ) :
    List (Int × ℝ) :=
  beamLoop metric nodes q layer ef (nodes.length + 2)
    [startId] [(startId, startScore)] [(startId, startScore)]

/-- Modelled from the spec: `searchKNN(query, k)` — empty result on an empty
graph or `k ≤ 0`; otherwise greedy descent from the entry point at `levelMax`
down to layer 1, then beam search at layer 0 with width `max(k,
efConstruction)`, returning the top `k` of the best-set by descending score
(section 4.5).  Pure: the index is not mutated and an out-of-range `k` is not
an error (section 7, InvalidK). -/
noncomputable def searchKNN (I : HNSW) (q : List ℝ) (k : Int) :
    List SearchResult :=
  if k ≤ 0 then []
  else
    match I.entryPointId with
    | none => []
    | some ep =>
      match mget I.nodes ep with
      | none => []
      | some epNode =>
        let s0 := Metric.score I.metric q epNode.vector
        let start := descendFrom I.metric I.nodes q I.levelMax 1 (ep, s0)
        let ef := max k.toNat I.efConstruction
        let best := beamSearch I.metric I.nodes q 0 ef start.1 start.2
        (best.take k.toNat).map (fun p => { id := p.1, score := p.2 })

/-- Modelled from the spec: append a neighbor id to a node's edge list at a
layer (section 4.3, `addNeighbor(layer, id)`). -/
def addNeighborAt (nd : Node) (layer : Nat) (nid : Int) : Node :=
  { nd with neighbors := nd.neighbors.set layer ((nd.neighbors.getD layer []) ++ [nid]) }

/-- Apply a function to the node stored under an id, leaving the map's keys
and order unchanged. -/
def updateNode (nodes : List (Int × Node)) (id : Int) (f : Node → Node) :
    List (Int × Node) :=
  nodes.map (fun p => if p.1 = id then (p.1, f p.2) else p)

/-- Modelled from the spec: the diversity-aware neighbor selection of section
4.4 step 4 — iterate candidates in descending similarity order, accepting up
to `M` of them, and reject a candidate that is dominated, i.e. closer (more
similar) to an already-accepted neighbor than to the new point itself. -/
noncomputable def selectDiverseFrom (metric : Metric) (nodes : List (Int × Node))
    (v : List ℝ) (cands : List (Int × ℝ)) (M : Nat) : List Int :=
  cands.foldl (fun acc c =>
    if M ≤ acc.length then acc
    else
      let dominated := acc.any (fun a =>
        match mget nodes a, mget nodes c.1 with
        | some na, some nc => decide (Metric.score metric nc.vector na.vector > c.2)
        | _, _ => false)
      if dominated then acc else acc ++ [c.1]) []

/-- Modelled from the spec: degree-bound maintenance of section 4.4 step 5 —
if a node's edge list at a layer exceeds `M`, re-select the best `M` from its
full neighbor list by the same diversity heuristic. -/
noncomputable def pruneNode (metric : Metric) (nodes : List (Int × Node))
    (M : Nat) (bid : Int) (layer : Nat) : List (Int × Node) :=
  match mget nodes bid with
  | none => nodes
  | some bnd =>
    let lst := bnd.neighbors.getD layer []
    if lst.length ≤ M then nodes
    else
      let scored := lst.filterMap (fun nid =>
        (mget nodes nid).map (fun nd => (nid, Metric.score metric bnd.vector nd.vector)))
      let sorted := scored.foldl (fun acc c => insertDesc c acc) []
      let keep := selectDiverseFrom metric nodes bnd.vector sorted M
      updateNode nodes bid (fun nd => { nd with neighbors := nd.neighbors.set layer keep })

/-- Modelled from the spec: the per-layer edge building of section 4.4 steps
4–5, run over the given layers from high to low — beam search with width
`efConstruction` for candidates, diversity-aware selection of up to `M`
neighbors, bidirectional edge creation, and pruning of each touched neighbor;
the best candidate is carried down as the next layer's start. -/
noncomputable def insertLayers (metric : Metric) (Mp efc : Nat) (id : Int)
    (v : List ℝ) :
    List Nat → List (Int × Node) × (Int × ℝ) → List (Int × Node)
  | [], st => st.1
  | layer :: rest, st =>
    let nodes := st.1
    let start := st.2
    let cands := beamSearch metric nodes v layer efc start.1 start.2
    let selected := selectDiverseFrom metric nodes v cands Mp
    let nodes1 := selected.foldl (fun ns nb =>
      let ns1 := updateNode ns id (fun nd => addNeighborAt nd layer nb)
      let ns2 := updateNode ns1 nb (fun nd => addNeighborAt nd layer id)
      pruneNode metric ns2 Mp nb layer) nodes
    let start1 := match cands.head? with
      | some c => c
      | none => start
    insertLayers metric Mp efc id v rest (nodes1, start1)

/-- Modelled from the spec: the insertion algorithm of section 4.4 given the
node's drawn top layer.  An empty graph just installs the node as entry point
(step 1); otherwise greedy descent through the layers above the new node's
top layer (step 3), edge building at layers `min(level, levelMax)..0` (steps
4–5), and entry-point/`levelMax` update when the new node tops the graph
(step 6). -/
noncomputable def insertNode (I : HNSW) (id : Int) (v : List ℝ) (level : Nat) :
    HNSW :=
  let newNode : Node := { vector := v, neighbors := List.replicate (level + 1) [] }
  match I.entryPointId with
  | none =>
    { I with nodes := mset I.nodes id newNode, entryPointId := some id,
             levelMax := level }
  | some ep =>
    let nodes0 := mset I.nodes id newNode
    let s0 := match mget nodes0 ep with
      | some epn => Metric.score I.metric v epn.vector
      | none => 0
    let start := descendFrom I.metric nodes0 v I.levelMax (level + 1) (ep, s0)
    let top := min level I.levelMax
    let layers := (List.range (top + 1)).map (fun i => top - i)
    let nodes1 := insertLayers I.metric I.M I.efConstruction id v layers (nodes0, start)
    if I.levelMax < level then
      { I with nodes := nodes1, entryPointId := some id, levelMax := level }
    else { I with nodes := nodes1 }

/-- Modelled from the spec: `addPoint(id, vector)` — fails with `DuplicateId`
when the id is already present (section 7, no mutation), with
`DimensionMismatch` when the vector's length disagrees with the fixed
dimension, and sets the dimension on the first insertion when it is unset
(sections 4.4 and 7).  The `level` argument stands for the internal random
top-layer draw, made explicit so the algorithm is deterministic (sections 7
and 9, seedable random source). -/
noncomputable def addPoint (I : HNSW) (id : Int) (v : List ℝ) (level : Nat) :
    Except HNSWError HNSW :=
  if (mget I.nodes id).isSome then .error .DuplicateId
  else
    match I.d with
    | some dim =>
      if v.length = dim then .ok (insertNode I id v level)
      else .error .DimensionMismatch
    | none => .ok (insertNode { I with d := some v.length } id v level)

/-- Translated from src `db.ts`: the `HNSWWithDB` state — the inherited graph
plus the private payload map `db`, parameterized over the payload type (the
source's `any`). -/
structure HNSWWithDB (α : Type) where
  toHNSW : HNSW
  db : List (Int × α)

/-- Translated from src `db.ts`: the constructor, which forwards
`M = 16, efConstruction = 200, d = null, metric = 'cosine'` to the base
class and starts with an empty payload map. -/
def hnswWithDBNew (α : Type) (M : Nat := 16) (efConstruction : Nat := 200)
    (d : Option Nat := none) (metric : Metric := Metric.cosine) : HNSWWithDB α :=
  { toHNSW := hnswNew M efConstruction d metric, db := [] }

/-- The base-class `addPoint` invoked on an `HNSWWithDB` instance: the payload
map is untouched. -/
noncomputable def addPointW {α : Type} (I : HNSWWithDB α) (id : Int)
    (v : List ℝ) (level : Nat) : Except HNSWError (HNSWWithDB α) :=
  match addPoint I.toHNSW id v level with
  | .error e => .error e
  | .ok h => .ok ⟨h, I.db⟩

/-- Translated from src `db.ts`: `addPointWithData` awaits `addPoint` (so a
failure propagates before any payload write) and then stores the payload
under the id with `Map.set`. -/
noncomputable def addPointWithData {α : Type} (I : HNSWWithDB α) (id : Int)
    (v : List ℝ) (data : α) (level : Nat) : Except HNSWError (HNSWWithDB α) :=
  match addPoint I.toHNSW id v level with
  | .error e => .error e
  | .ok h => .ok ⟨h, mset I.db id data⟩

/-- Translated from src `db.ts`: `getPointData(id)` is `db.get(id)`;
`none` embeds JavaScript `undefined` for an absent id. -/
def getPointData {α : Type} (I : HNSWWithDB α) (id : Int) : Option α :=
  mget I.db id

/-- Translated from src `db.ts`: a `searchKNNWithData` result entry, a search
result spread together with the payload looked up for its id. -/
structure ResultWithData (α : Type) where
  id : Int
  score : ℝ
  data : Option α

/-- Translated from src `db.ts`: `searchKNNWithData` maps `searchKNN` results
to the same id and score enriched with `getPointData(result.id)`. -/
noncomputable def searchKNNWithData {α : Type} (I : HNSWWithDB α) (q : List ℝ)
    (k : Int) : List (ResultWithData α) :=
  (searchKNN I.toHNSW q k).map
    (fun r => { id := r.id, score := r.score, data := getPointData I r.id })

/-- Modelled from the spec: the portable record shape of section 4.6 —
`{M, efConstruction, metric, d, maxLayer, entryPointId, nodes}` — extended by
the payload-map decorator's `db` entry list (src `db.ts` `toJSON`); the `db`
field is optional since base-index records lack it. -/
structure HNSWRecord (α : Type) where
  M : Nat
  efConstruction : Nat
  metric : Metric
  d : Option Nat
  levelMax : Nat
  entryPointId : Option Int
  nodes : List (Int × Node)
  db : Option (List (Int × α))

/-- Translated from src `db.ts` `toJSON` (base record shape modelled from the
spec, section 4.6): the full graph state plus the payload-map entries. -/
def toJSONW {α : Type} (I : HNSWWithDB α) : HNSWRecord α :=
  { M := I.toHNSW.M, efConstruction := I.toHNSW.efConstruction,
    metric := I.toHNSW.metric, d := I.toHNSW.d,
    levelMax := I.toHNSW.levelMax, entryPointId := I.toHNSW.entryPointId,
    nodes := I.toHNSW.nodes, db := some I.db }

/-- Translated from src `db.ts` `fromJSON`: constructs
`new HNSWWithDB(json.M, json.efConstruction)` — the remaining constructor
parameters take their defaults — then assigns `levelMax`, `entryPointId` and
`nodes` from the record, and the payload map when the record carries one. -/
def fromJSONW {α : Type} (r : HNSWRecord α) : HNSWWithDB α :=
  { toHNSW := { hnswNew r.M r.efConstruction with
      levelMax := r.levelMax, entryPointId := r.entryPointId, nodes := r.nodes },
    db := match r.db with
      | some l => l
      | none => [] }

/-- Translated from src (semantic-search service): `l2Normalize` — sum the
squared components, take `1 / sqrt(norm || 1e-9)` (the JavaScript `||` guard
replaces an exactly-zero sum), and scale every component by it. -/
noncomputable def l2Normalize (v : List ℝ) : List ℝ :=
  let n := sumSq v
  let s := 1 / Real.sqrt (if n = 0 then 1 / 1000000000 else n)
  v.map (fun x => x * s)

/-! ## Helper lemmas about the map embedding -/

theorem mget_mset {β : Type _} (l : List (Int × β)) (k : Int) (v : β) (id : Int) :
    mget (mset l k v) id = if id = k then some v else mget l id := by
  induction l with
  | nil =>
    by_cases h : id = k
    · simp [mset, mget, h]
    · simp [mset, mget, h, Ne.symm h]
  | cons p rest ih =>
    obtain ⟨k0, w⟩ := p
    by_cases hk0 : k0 = k
    · subst hk0
      by_cases h : id = k0
      · simp [mset, mget, h]
      · simp [mset, mget, h, Ne.symm h]
    · by_cases h : id = k
      · subst h
        simp [mset, mget, hk0, ih]
      · by_cases h0 : k0 = id
        · simp [mset, mget, hk0, h0, ih, h]
        · simp [mset, mget, hk0, h0, ih, h]

theorem mget_eq_none {β : Type _} (l : List (Int × β)) (id : Int)
    (h : ∀ p ∈ l, p.1 ≠ id) : mget l id = none := by
  induction l with
  | nil => rfl
  | cons p rest ih =>
    obtain ⟨k, v⟩ := p
    have hk : k ≠ id := h (k, v) (List.mem_cons_self _ _)
    simp only [mget, if_neg hk]
    exact ih (fun q hq => h q (List.mem_cons_of_mem _ hq))

/-! ## Helper lemmas about real vector arithmetic -/

theorem dot_self_nonneg (v : List ℝ) : 0 ≤ dot v v := by
  induction v with
  | nil => simp [dot]
  | cons x xs ih =>
    have : dot (x :: xs) (x :: xs) = x * x + dot xs xs := rfl
    rw [this]
    exact add_nonneg (mul_self_nonneg x) ih

theorem dot_map_smul (v : List ℝ) (s : ℝ) :
    dot (v.map (fun x => x * s)) (v.map (fun x => x * s)) = s ^ 2 * dot v v := by
  induction v with
  | nil => simp [dot]
  | cons x xs ih =>
    have h1 : dot ((x :: xs).map (fun x => x * s)) ((x :: xs).map (fun x => x * s))
        = (x * s) * (x * s) + dot (xs.map (fun x => x * s)) (xs.map (fun x => x * s)) := rfl
    have h2 : dot (x :: xs) (x :: xs) = x * x + dot xs xs := rfl
    rw [h1, h2, ih]
    ring

/-! ## Claim theorems -/

/-- C2: the payload map survives a serialization round trip — for every
`HNSWWithDB` instance and every id, `getPointData` is unchanged by
`fromJSON ∘ toJSON`, and every `id→data` entry of the payload map is present
in the record `toJSON` produces. -/
theorem c2_payload_roundtrip (α : Type) (I : HNSWWithDB α) (id : Int) :
    getPointData (fromJSONW (toJSONW I)) id = getPointData I id ∧
    (toJSONW I).db = some I.db :=
  ⟨rfl, rfl⟩

/-- C4: when `addPointWithData(id, vector, data)` completes without error,
`getPointData(id)` returns exactly that data, and the payload entry of every
other id is unchanged. -/
theorem c4_addPointWithData_stores {α : Type} (I : HNSWWithDB α) (id : Int)
    (v : List ℝ) (a : α) (lvl : Nat) (J : HNSWWithDB α)
    (h : addPointWithData I id v a lvl = Except.ok J) :
    getPointData J id = some a ∧
    ∀ j : Int, j ≠ id → getPointData J j = getPointData I j := by
  unfold addPointWithData at h
  cases hp : addPoint I.toHNSW id v lvl with
  | error e => rw [hp] at h; exact absurd h (by simp)
  | ok hn =>
    rw [hp] at h
    have hJ : J = ⟨hn, mset I.db id a⟩ := by
      cases h
      rfl
    subst hJ
    constructor
    · show mget (mset I.db id a) id = some a
      rw [mget_mset]
      simp
    · intro j hj
      show mget (mset I.db id a) j = mget I.db j
      rw [mget_mset, if_neg hj]

/-- C4 witness: storing payload `42` under id `0` in a fresh index succeeds
and is observed by `getPointData`, while the (absent) entry of id `1` is
unchanged. -/
def c4I : HNSWWithDB Nat :=
  ⟨⟨16, 200, some 2, Metric.cosine, 0, some 0, [(0, ⟨[1, 0], [[]]⟩)]⟩, [(0, 42)]⟩

theorem c4_witness :
    getPointData c4I 0 = some 42 ∧
    getPointData c4I 1 = getPointData (hnswWithDBNew Nat 16 200 none Metric.cosine) 1 := by
  have H := c4_addPointWithData_stores (hnswWithDBNew Nat 16 200 none Metric.cosine)
    0 [1, 0] 42 0 c4I rfl
  exact ⟨H.1, H.2 1 (by decide)⟩

/-- C5: when the underlying `addPoint` fails, `addPointWithData` propagates
exactly that failure.  In this state-passing embedding an error result
carries no successor state, so the caller's instance — payload map included —
is untouched, and in particular nothing is stored under the id. -/
theorem c5_addPointWithData_propagates {α : Type} (I : HNSWWithDB α) (id : Int)
    (v : List ℝ) (a : α) (lvl : Nat) (e : HNSWError)
    (h : addPoint I.toHNSW id v lvl = Except.error e) :
    addPointWithData I id v a lvl = Except.error e := by
  unfold addPointWithData
  rw [h]

/-- C5 witness: inserting a duplicate id propagates `DuplicateId` through
`addPointWithData`. -/
def c5I : HNSWWithDB Nat :=
  ⟨⟨16, 200, some 2, Metric.cosine, 0, some 0, [(0, ⟨[1, 0], [[]]⟩)]⟩, [(0, 5)]⟩

theorem c5_witness :
    addPointWithData c5I 0 [9, 9] 7 0 = Except.error HNSWError.DuplicateId :=
  c5_addPointWithData_propagates c5I 0 [9, 9] 7 0 HNSWError.DuplicateId rfl

/-- C6: the no-argument constructor yields `M = 16`, `efConstruction = 200`,
`d = null` and `metric = cosine`, and the constructor with explicit arguments
stores exactly the supplied parameters. -/
theorem c6_constructor_params :
    ((hnswWithDBNew Unit).toHNSW.M = 16 ∧
     (hnswWithDBNew Unit).toHNSW.efConstruction = 200 ∧
     (hnswWithDBNew Unit).toHNSW.d = none ∧
     (hnswWithDBNew Unit).toHNSW.metric = Metric.cosine) ∧
    ∀ (α : Type) (M ef : Nat) (d : Option Nat) (m : Metric),
      (hnswWithDBNew α M ef d m).toHNSW.M = M ∧
      (hnswWithDBNew α M ef d m).toHNSW.efConstruction = ef ∧
      (hnswWithDBNew α M ef d m).toHNSW.d = d ∧
      (hnswWithDBNew α M ef d m).toHNSW.metric = m :=
  ⟨⟨rfl, rfl, rfl, rfl⟩, fun _ _ _ _ _ => ⟨rfl, rfl, rfl, rfl⟩⟩

/-- C9: `fromJSON` builds the new instance from only the record's `M` and
`efConstruction`; the resulting index has the constructor-default metric
`cosine` and dimension `none`, whatever the record says, while `levelMax`,
`entryPointId` and `nodes` are taken from the record. -/
theorem c9_fromJSON_defaults (α : Type) (r : HNSWRecord α) :
    (fromJSONW r).toHNSW.metric = Metric.cosine ∧
    (fromJSONW r).toHNSW.d = none ∧
    (fromJSONW r).toHNSW.M = r.M ∧
    (fromJSONW r).toHNSW.efConstruction = r.efConstruction ∧
    (fromJSONW r).toHNSW.levelMax = r.levelMax ∧
    (fromJSONW r).toHNSW.entryPointId = r.entryPointId ∧
    (fromJSONW r).toHNSW.nodes = r.nodes :=
  ⟨rfl, rfl, rfl, rfl, rfl, rfl, rfl⟩

/-- C7: `searchKNN(q, k)` returns the empty list whenever the graph contains
no nodes or `k ≤ 0`.  `searchKNN` is a pure total function, so a
non-positive `k` is answered with `[]` rather than an error and the index
state is never mutated by a search. -/
theorem c7_search_empty_or_nonpositive_k (I : HNSW) (q : List ℝ) (k : Int)
    (h : I.nodes = [] ∨ k ≤ 0) : searchKNN I q k = [] := by
  rcases h with h | h
  · by_cases hk : k ≤ 0
    · simp [searchKNN, hk]
    · cases hep : I.entryPointId with
      | none => simp [searchKNN, hk, hep]
      | some ep => simp [searchKNN, hk, hep, h, mget]
  · simp [searchKNN, h]

/-- C7 witness: a freshly constructed (hence empty) index answers a query
with the empty list, and a one-node index answers `k = -1` with the empty
list. -/
theorem c7_witness :
    searchKNN (hnswNew 16 200 none Metric.cosine) [1] 3 = [] ∧
    searchKNN ⟨16, 200, some 1, Metric.cosine, 0, some 0, [(0, ⟨[1], [[]]⟩)]⟩
      [1] (-1) = [] :=
  ⟨c7_search_empty_or_nonpositive_k _ [1] 3 (Or.inl rfl),
   c7_search_empty_or_nonpositive_k _ [1] (-1) (Or.inr (by decide))⟩

/-- C10: for an id under which no payload entry exists — in particular any id
inserted with the plain `addPoint`, which never writes the payload map —
`getPointData` returns `none` (JavaScript `undefined`) rather than failing,
and every `searchKNNWithData` entry with that id carries `data = none`. -/
theorem c10_missing_payload_none (α : Type) (I : HNSWWithDB α) (id : Int)
    (q : List ℝ) (k : Int) (h : ∀ p ∈ I.db, p.1 ≠ id) :
    getPointData I id = none ∧
    ∀ r ∈ searchKNNWithData I q k, r.id = id → r.data = none := by
  have hg : getPointData I id = none := mget_eq_none I.db id h
  refine ⟨hg, ?_⟩
  intro r hr hrid
  unfold searchKNNWithData at hr
  rcases List.mem_map.mp hr with ⟨s, _, hmap⟩
  subst hmap
  have hid : s.id = id := hrid
  show getPointData I s.id = none
  rw [hid]
  exact hg

/-- C10 witness: a one-node instance whose single point was inserted by the
plain `addPoint` (no payload write) answers `getPointData` with `none`, and
its search-with-data results carry `data = none`. -/
def c10I : HNSWWithDB Nat :=
  ⟨⟨16, 200, some 2, Metric.cosine, 0, some 0, [(0, ⟨[1, 0], [[]]⟩)]⟩, []⟩

theorem c10_witness :
    addPointW (hnswWithDBNew Nat 16 200 none Metric.cosine) 0 [1, 0] 0
      = Except.ok c10I ∧
    (getPointData c10I 0 = none ∧
      ∀ r ∈ searchKNNWithData c10I [1, 0] 1, r.id = 0 → r.data = none) :=
  ⟨rfl, c10_missing_payload_none Nat c10I 0 [1, 0] 1
    (fun p hp => absurd hp (List.not_mem_nil p))⟩

/-- First-of option choice (JavaScript `a ?? b` on optionals), used to state
which write to the payload map is observed. -/
def orElseO {γ : Type _} (a b : Option γ) : Option γ :=
  match a with
  | some x => some x
  | none => b

theorem orElseO_none_right {γ : Type _} (a : Option γ) : orElseO a none = a := by
  cases a <;> rfl

theorem orElseO_assoc {γ : Type _} (a b c : Option γ) :
    orElseO (orElseO a b) c = orElseO a (orElseO b c) := by
  cases a <;> rfl

/-- An insertion workload: each entry is `(id, vector, payload, level draw)`
to be passed to `addPointWithData`. -/
noncomputable def runAdds {α : Type} :
    HNSWWithDB α → List (Int × List ℝ × α × Nat) → Except HNSWError (HNSWWithDB α)
  | I, [] => .ok I
  | I, op :: rest =>
    match addPointWithData I op.1 op.2.1 op.2.2.1 op.2.2.2 with
    | .error e => .error e
    | .ok I1 => runAdds I1 rest

/-- The payload most recently stored for an id by a workload of
`addPointWithData` calls (later entries win). -/
def lastStored {α : Type} : List (Int × List ℝ × α × Nat) → Int → Option α
  | [], _ => none
  | op :: rest, id =>
    orElseO (lastStored rest id) (if op.1 = id then some op.2.2.1 else none)

theorem runAdds_db {α : Type} (ops : List (Int × List ℝ × α × Nat)) :
    ∀ (I J : HNSWWithDB α), runAdds I ops = Except.ok J →
      ∀ id : Int, mget J.db id = orElseO (lastStored ops id) (mget I.db id) := by
  induction ops with
  | nil =>
    intro I J h id
    have hIJ : I = J := by
      have : Except.ok (ε := HNSWError) I = Except.ok J := h
      cases this
      rfl
    subst hIJ
    rfl
  | cons op rest ih =>
    intro I J h id
    unfold runAdds at h
    cases hA : addPointWithData I op.1 op.2.1 op.2.2.1 op.2.2.2 with
    | error e => rw [hA] at h; exact absurd h (by simp)
    | ok I1 =>
      rw [hA] at h
      have hdb : I1.db = mset I.db op.1 op.2.2.1 := by
        unfold addPointWithData at hA
        cases hp : addPoint I.toHNSW op.1 op.2.1 op.2.2.2 with
        | error e => rw [hp] at hA; exact absurd hA (by simp)
        | ok hn =>
          rw [hp] at hA
          cases hA
          rfl
      have key := ih I1 J h id
      rw [key, hdb, mget_mset]
      show orElseO (lastStored rest id) (if id = op.1 then some op.2.2.1 else mget I.db id)
        = orElseO (orElseO (lastStored rest id) (if op.1 = id then some op.2.2.1 else none))
            (mget I.db id)
      rw [orElseO_assoc]
      by_cases hid : id = op.1
      · simp [hid, orElseO]
      · simp [hid, Ne.symm hid, orElseO]

/-- C3: for any instance built by a workload of `addPointWithData` calls from
a freshly constructed index, `searchKNNWithData(q, k)` is exactly
`searchKNN(q, k)` with each entry keeping its id and score and carrying as
`data` the payload most recently stored for that id by the workload. -/
theorem c3_searchKNNWithData_results {α : Type} (M ef : Nat) (d : Option Nat)
    (m : Metric) (ops : List (Int × List ℝ × α × Nat)) (I : HNSWWithDB α)
    (h : runAdds (hnswWithDBNew α M ef d m) ops = Except.ok I)
    (q : List ℝ) (k : Int) :
    searchKNNWithData I q k
      = (searchKNN I.toHNSW q k).map
          (fun r => { id := r.id, score := r.score, data := lastStored ops r.id }) := by
  have hdb : ∀ id : Int, getPointData I id = lastStored ops id := by
    intro id
    have := runAdds_db ops (hnswWithDBNew α M ef d m) I h id
    have h0 : mget (hnswWithDBNew α M ef d m).db id = none := rfl
    rw [h0, orElseO_none_right] at this
    exact this
  unfold searchKNNWithData
  have hfn : (fun r : SearchResult =>
        ({ id := r.id, score := r.score, data := getPointData I r.id } : ResultWithData α))
      = fun r => { id := r.id, score := r.score, data := lastStored ops r.id } := by
    funext r
    rw [hdb r.id]
  rw [hfn]

/-- C3 witness: a single `addPointWithData` call building a one-node index;
the search-with-data results are the plain results enriched with the stored
payload. -/
def c3ops : List (Int × List ℝ × Nat × Nat) := [(0, [1, 0], 42, 0)]

def c3I : HNSWWithDB Nat :=
  ⟨⟨16, 200, some 2, Metric.cosine, 0, some 0, [(0, ⟨[1, 0], [[]]⟩)]⟩, [(0, 42)]⟩

theorem c3_witness :
    searchKNNWithData c3I [1, 0] 1
      = (searchKNN c3I.toHNSW [1, 0] 1).map
          (fun r => { id := r.id, score := r.score, data := lastStored c3ops r.id }) :=
  c3_searchKNNWithData_results 16 200 none Metric.cosine c3ops c3I rfl [1, 0] 1

/-- C8: over exact real arithmetic, `l2Normalize` of a vector with nonzero
Euclidean norm keeps the length, divides every component by the norm, and
yields a vector of unit L2 length. -/
theorem c8_l2Normalize_unit (v : List ℝ) (h : l2norm v ≠ 0) :
    (l2Normalize v).length = v.length ∧
    (∀ i : Nat, i < v.length →
      (l2Normalize v).getD i 0 = v.getD i 0 / l2norm v) ∧
    l2norm (l2Normalize v) = 1 := by
  have hn0 : sumSq v ≠ 0 := by
    intro e
    apply h
    rw [l2norm, e, Real.sqrt_zero]
  have hpos : 0 < sumSq v := lt_of_le_of_ne (dot_self_nonneg v) (Ne.symm hn0)
  have hL : l2Normalize v = v.map (fun x => x * (1 / Real.sqrt (sumSq v))) := by
    show v.map (fun x =>
      x * (1 / Real.sqrt (if sumSq v = 0 then 1 / 1000000000 else sumSq v))) = _
    rw [if_neg hn0]
  refine ⟨?_, ?_, ?_⟩
  · rw [hL]
    exact List.length_map v _
  · intro i hi
    have hi2 : i < (v.map (fun x => x * (1 / Real.sqrt (sumSq v)))).length := by
      rw [List.length_map]
      exact hi
    rw [hL, List.getD_eq_getElem _ _ hi2, List.getD_eq_getElem _ _ hi,
      List.getElem_map]
    rw [l2norm, mul_one_div]
  · have hs : (1 / Real.sqrt (sumSq v)) ^ 2 * sumSq v = 1 := by
      rw [div_pow, one_pow, Real.sq_sqrt (le_of_lt hpos), one_div,
        inv_mul_cancel₀ hn0]
    rw [hL]
    show Real.sqrt (dot (v.map fun x => x * (1 / Real.sqrt (sumSq v)))
        (v.map fun x => x * (1 / Real.sqrt (sumSq v)))) = 1
    rw [dot_map_smul]
    show Real.sqrt ((1 / Real.sqrt (sumSq v)) ^ 2 * sumSq v) = 1
    rw [hs, Real.sqrt_one]

/-- C8 witness: the vector `[3, 4]` has norm 5, and its normalization keeps
the length, divides the components by the norm, and has unit norm. -/
theorem c8_witness :
    (l2Normalize [(3:ℝ), 4]).length = ([(3:ℝ), 4]).length ∧
    (∀ i : Nat, i < ([(3:ℝ), 4]).length →
      (l2Normalize [(3:ℝ), 4]).getD i 0 = ([(3:ℝ), 4]).getD i 0 / l2norm [(3:ℝ), 4]) ∧
    l2norm (l2Normalize [(3:ℝ), 4]) = 1 :=
  c8_l2Normalize_unit [3, 4] (by
    have hs : sumSq [(3:ℝ), 4] = 3 * 3 + (4 * 4 + 0) := rfl
    have : (0:ℝ) < sumSq [(3:ℝ), 4] := by rw [hs]; norm_num
    exact ne_of_gt (Real.sqrt_pos.mpr this))

/-- C1 evidence: a one-point index built with the euclidean metric (the first
conjunct shows it is exactly what `addPoint` builds from a fresh euclidean
index).  Serializing and deserializing it changes `searchKNN` answers,
because `fromJSON` rebuilds the index from only `M` and `efConstruction` and
therefore searches with the constructor-default cosine metric: the original
returns score `1/2 = 1/(1+dist)` while the round-tripped index returns
cosine score `1` for the same query. -/
def c1I : HNSW :=
  ⟨16, 200, some 2, Metric.euclidean, 0, some 0, [(0, ⟨[1, 0], [[]]⟩)]⟩

def c1Idb : HNSWWithDB Unit := ⟨c1I, []⟩

theorem c1_roundtrip_changes_search :
    addPoint (hnswNew 16 200 (some 2) Metric.euclidean) 0 [1, 0] 0
      = Except.ok c1I ∧
    searchKNN (fromJSONW (toJSONW c1Idb)).toHNSW [2, 0] 1
      ≠ searchKNN c1Idb.toHNSW [2, 0] 1 := by
  refine ⟨rfl, ?_⟩
  have hE : searchKNN c1Idb.toHNSW [2, 0] 1
      = [⟨0, euclideanSimilarity [2, 0] [1, 0]⟩] := rfl
  have hC : searchKNN (fromJSONW (toJSONW c1Idb)).toHNSW [2, 0] 1
      = [⟨0, cosineSimilarity [2, 0] [1, 0]⟩] := rfl
  have hCval : cosineSimilarity [(2:ℝ), 0] [1, 0] = 1 := by
    have hsu : sumSq [(2:ℝ), 0] = 2 * 2 + (0 * 0 + 0) := rfl
    have hsv : sumSq [(1:ℝ), 0] = 1 * 1 + (0 * 0 + 0) := rfl
    have hnu : l2norm [(2:ℝ), 0] = 2 := by
      rw [l2norm, hsu, show (2 * 2 + (0 * 0 + 0) : ℝ) = 2 ^ 2 by norm_num,
        Real.sqrt_sq (by norm_num : (0:ℝ) ≤ 2)]
    have hnv : l2norm [(1:ℝ), 0] = 1 := by
      rw [l2norm, hsv, show (1 * 1 + (0 * 0 + 0) : ℝ) = 1 by norm_num,
        Real.sqrt_one]
    have hd : dot [(2:ℝ), 0] [1, 0] = 2 * 1 + (0 * 0 + 0) := rfl
    unfold cosineSimilarity
    rw [hnu, hnv, hd, if_neg (by norm_num : ¬((2:ℝ) * 1 = 0))]
    norm_num
  have hEval : euclideanSimilarity [(2:ℝ), 0] [1, 0] = 1 / 2 := by
    have hds : distSq [(2:ℝ), 0] [1, 0] = (2 - 1) ^ 2 + ((0 - 0) ^ 2 + 0) := rfl
    unfold euclideanSimilarity euclideanDist
    rw [hds, show ((2:ℝ) - 1) ^ 2 + ((0 - 0) ^ 2 + 0) = 1 by norm_num,
      Real.sqrt_one]
    norm_num
  rw [hC, hE, hCval, hEval]
  intro hbad
  have : (1 : ℝ) = 1 / 2 := by
    have h1 := congrArg (fun l : List SearchResult => (l.headD ⟨0, 0⟩).score) hbad
    simp at h1
  norm_num at this

end Hnsw
